import Mathlib

/-!
Shallow embedding of the `apierr` Go library: a helper library that turns
application errors carrying an HTTP status code, optional "extra" tokens and
optional custom headers into HTTP responses.

The repository carries two generations of the dispatcher:
* the `APIErr`-based pipeline (`Handle`, `HandleISE`, `extractAPIErr`,
  `New`, `FromText`, `CustomHeader`, decorators, the legacy
  `DefaultDBNotFoundHandler` predicate);
* the `problem.Problem`-based pipeline (`Handle` with a registry populated by
  `AddHandler`, `extractProblem`).
Both are embedded here; the Problem-based functions are suffixed `V2` because
Lean needs distinct names.

Modelling conventions:
* Go `int` is `Int`.
* Process-wide mutable registries (`decorators`, `handlers`) and the mutable
  `DefaultDBNotFoundHandler` slot are passed as explicit parameters.
* `http.Header` is an association list from header name to the ordered list of
  added values; `Add` appends to the entry (Go's MIME-canonicalisation of
  header keys is orthogonal to the properties below and is not modelled).
* A `http.ResponseWriter` is the record of headers, the status code written
  and the body bytes written.  `http.Error(w, msg, code)` writes the status
  and the message as the error body (the trailing newline `Fprintln` adds,
  and the `Content-Type`/`X-Content-Type-Options` bookkeeping, belong to the
  sink's error-line convention and are not part of the model).
* Go maps can be `nil`; a `nil` map reads as empty but panics on write.  The
  `customHeaders` field is therefore an `Option` of an association list and
  `CustomHeader` returns `none` exactly when Go would panic (write to a nil
  map).
* `schneider.vip/problem` is an external collaborator: a `Problem` is
  modelled by its observable interface, a status code and the serialized
  body that `WriteTo` emits.
-/

/-- `http.StatusText` from Go's `net/http`: the standard reason phrase for a
status code, `""` for unknown codes. -/
def statusText (code : Int) : String :=
  match code with
  | 100 => "Continue"
  | 101 => "Switching Protocols"
  | 102 => "Processing"
  | 103 => "Early Hints"
  | 200 => "OK"
  | 201 => "Created"
  | 202 => "Accepted"
  | 203 => "Non-Authoritative Information"
  | 204 => "No Content"
  | 205 => "Reset Content"
  | 206 => "Partial Content"
  | 207 => "Multi-Status"
  | 208 => "Already Reported"
  | 226 => "IM Used"
  | 300 => "Multiple Choices"
  | 301 => "Moved Permanently"
  | 302 => "Found"
  | 303 => "See Other"
  | 304 => "Not Modified"
  | 305 => "Use Proxy"
  | 307 => "Temporary Redirect"
  | 308 => "Permanent Redirect"
  | 400 => "Bad Request"
  | 401 => "Unauthorized"
  | 402 => "Payment Required"
  | 403 => "Forbidden"
  | 404 => "Not Found"
  | 405 => "Method Not Allowed"
  | 406 => "Not Acceptable"
  | 407 => "Proxy Authentication Required"
  | 408 => "Request Timeout"
  | 409 => "Conflict"
  | 410 => "Gone"
  | 411 => "Length Required"
  | 412 => "Precondition Failed"
  | 413 => "Request Entity Too Large"
  | 414 => "Request URI Too Long"
  | 415 => "Unsupported Media Type"
  | 416 => "Requested Range Not Satisfiable"
  | 417 => "Expectation Failed"
  | 418 => "I\x27m a teapot"
  | 421 => "Misdirected Request"
  | 422 => "Unprocessable Entity"
  | 423 => "Locked"
  | 424 => "Failed Dependency"
  | 425 => "Too Early"
  | 426 => "Upgrade Required"
  | 428 => "Precondition Required"
  | 429 => "Too Many Requests"
  | 431 => "Request Header Fields Too Large"
  | 451 => "Unavailable For Legal Reasons"
  | 500 => "Internal Server Error"
  | 501 => "Not Implemented"
  | 502 => "Bad Gateway"
  | 503 => "Service Unavailable"
  | 504 => "Gateway Timeout"
  | 505 => "HTTP Version Not Supported"
  | 506 => "Variant Also Negotiates"
  | 507 => "Insufficient Storage"
  | 508 => "Loop Detected"
  | 510 => "Not Extended"
  | 511 => "Network Authentication Required"
  | _ => ""

/-- A Go `http.Header` / `map[string][]string`: association list from header
name to the ordered list of values added under that name. -/
abbrev HeaderMap := List (String × List String)

/-- Lookup of a key in a header map (`m[k]` with its `ok` flag folded into
`Option`). -/
def headerLookup : HeaderMap → String → Option (List String)
  | [], _ => none
  | (k0, vs) :: rest, key => if k0 = key then some vs else headerLookup rest key

/-- Map write `m[k] = vs`: replace the entry for `k` when present, append a
fresh entry otherwise. -/
def headerSet : HeaderMap → String → List String → HeaderMap
  | [], key, vs => [(key, vs)]
  | (k0, old) :: rest, key, vs =>
    if k0 = key then (key, vs) :: rest else (k0, old) :: headerSet rest key vs

/-- `http.Header.Add`: `h[k] = append(h[k], v)`. -/
def headerAdd (h : HeaderMap) (key v : String) : HeaderMap :=
  match headerLookup h key with
  | none => headerSet h key [v]
  | some vs => headerSet h key (vs ++ [v])

/-- The observable state of a `http.ResponseWriter`: the headers added, the
status code written (if any) and the body bytes written. -/
structure ResponseWriter where
  headers : HeaderMap
  status : Option Int
  body : String

/-- A fresh response recorder: no headers, no status written, empty body. -/
def ResponseWriter.fresh : ResponseWriter := ⟨[], none, ""⟩

/-- `w.Header().Add(key, v)`. -/
def ResponseWriter.addHeader (w : ResponseWriter) (key v : String) : ResponseWriter :=
  { w with headers := headerAdd w.headers key v }

/-- `w.WriteHeader(code)`: writes the status line only. -/
def ResponseWriter.writeHeader (w : ResponseWriter) (code : Int) : ResponseWriter :=
  { w with status := some code }

/-- `http.Error(w, msg, code)`: writes the status line and the error message
as the body. -/
def httpError (w : ResponseWriter) (msg : String) (code : Int) : ResponseWriter :=
  { w with status := some code, body := w.body ++ msg }

/-- External collaborator `schneider.vip/problem`: a `Problem` is modelled by
its status code and the serialized body its `WriteTo` emits. -/
structure Problem where
  status : Int
  body : String

/-- `problem.Problem.WriteTo(w)`: writes the problem's status code and its
serialized body to the response writer. -/
def Problem.writeTo (p : Problem) (w : ResponseWriter) : ResponseWriter :=
  { w with status := some p.status, body := w.body ++ p.body }

mutual
/-- A Go `error` value as the library can observe it:
* `basic msg` — an opaque error (`errors.New`, `fmt.Errorf` without `%w`);
  it has no `Unwrap` method;
* `wrap msg inner` — a wrapper built by `fmt.Errorf("...: %w", inner)`;
  its `Unwrap` returns `inner`;
* `api a` — an `*APIErr` used as an `error` (no `Unwrap` method);
* `problem p` — a `*problem.Problem` used as an `error` (no `Unwrap`). -/
inductive GoError : Type where
  | basic : String → GoError
  | wrap : String → GoError → GoError
  | api : APIErr → GoError
  | problem : Problem → GoError

/-- The `APIErr` struct: `code`, the wrapped cause `err` (a nullable Go
interface), the `extra` tokens, the `customHeaders` map (an `Option`, `none`
being Go's nil map) and the `extras` flag. -/
inductive APIErr : Type where
  | mk : Int → Option GoError → List String → Option HeaderMap → Bool → APIErr
end

/-- Field `code`. -/
def APIErr.code : APIErr → Int
  | .mk c _ _ _ _ => c

/-- Field `err` (the wrapped cause, nullable). -/
def APIErr.err : APIErr → Option GoError
  | .mk _ e _ _ _ => e

/-- Field `extra`. -/
def APIErr.extra : APIErr → List String
  | .mk _ _ ex _ _ => ex

/-- Field `customHeaders` (`none` models Go's nil map). -/
def APIErr.customHeaders : APIErr → Option HeaderMap
  | .mk _ _ _ m _ => m

/-- Field `extras`. -/
def APIErr.extras : APIErr → Bool
  | .mk _ _ _ _ f => f

/-- The `Error()` string of a Go error value: an opaque or wrapping error
returns its formatted message; an `*APIErr` returns its cause's message or
`""` when the cause is nil; a `*problem.Problem` returns its serialized
body. -/
def GoError.message : GoError → String
  | .basic m => m
  | .wrap m _ => m
  | .api (.mk _ none _ _ _) => ""
  | .api (.mk _ (some e) _ _ _) => e.message
  | .problem p => p.body

/-- `(a *APIErr) Error() string`: `""` when the cause is nil, otherwise the
cause's `Error()`. -/
def APIErr.Error : APIErr → String
  | .mk _ none _ _ _ => ""
  | .mk _ (some e) _ _ _ => e.message

/-- `(a *APIErr) StatusCode() int`. -/
def APIErr.StatusCode (a : APIErr) : Int := a.code

/-- `(a *APIErr) mergeExtra()`: `strings.Join(a.extra, ",")`. -/
def APIErr.mergeExtra (a : APIErr) : String := String.intercalate "," a.extra

/-- `errors.Unwrap`: returns the wrapped error of a `fmt.Errorf("%w")`
wrapper; every other shape has no `Unwrap` method, so `nil`. -/
def errorsUnwrap : GoError → Option GoError
  | .wrap _ inner => some inner
  | _ => none

/-- `errors.As(err, &ae)` with target `**APIErr`: matches the current error
when it is an `*APIErr`, otherwise follows the `Unwrap` chain. -/
def errorsAsAPIErr : GoError → Option APIErr
  | .api a => some a
  | .wrap _ inner => errorsAsAPIErr inner
  | .basic _ => none
  | .problem _ => none

/-- `errors.As(err, &ae)` with target `**problem.Problem`. -/
def errorsAsProblem : GoError → Option Problem
  | .problem p => some p
  | .wrap _ inner => errorsAsProblem inner
  | .basic _ => none
  | .api _ => none

/-- `extractAPIErr` (part_000): loop `for err != nil`, testing `errors.As`
and stepping with `errors.Unwrap` (inlined: only a `wrap` node unwraps). -/
def extractAPIErr (e : GoError) : Option APIErr :=
  match errorsAsAPIErr e with
  | some a => some a
  | none =>
    match e with
    | .wrap _ inner => extractAPIErr inner
    | _ => none

/-- `extractProblem` (handler.go): the same loop with target
`*problem.Problem`. -/
def extractProblem (e : GoError) : Option Problem :=
  match errorsAsProblem e with
  | some p => some p
  | none =>
    match e with
    | .wrap _ inner => extractProblem inner
    | _ => none

/-- `New(err, code, extra...)`: builds an `APIErr` with
`extras = len(extra) > 0` and a fresh (non-nil, empty) `customHeaders`
map. -/
def New (err : Option GoError) (code : Int) (extra : List String) : APIErr :=
  .mk code err extra (some []) (decide (0 < extra.length))

/-- `FromText(errText, code, extra...)`: `New(errors.New(errText), ...)`. -/
def FromText (errText : String) (code : Int) (extra : List String) : APIErr :=
  New (some (.basic errText)) code extra

/-- Rebuild an `APIErr` with a new `customHeaders` map (the in-place map
assignment of the Go method). -/
def APIErr.withCustomHeaders : APIErr → Option HeaderMap → APIErr
  | .mk c e ex _ f, m => .mk c e ex m f

/-- `(a *APIErr) CustomHeader(k, v)`: append `v` to the list stored under
`k`, creating the list on first use.  The write `a.customHeaders[k] = curr`
panics in Go when the map is nil; the model returns `none` exactly there. -/
def APIErr.CustomHeader (a : APIErr) (k v : String) : Option APIErr :=
  match a.customHeaders with
  | none => none
  | some m =>
    let curr := match headerLookup m k with
      | none => []
      | some vs => vs
    some (a.withCustomHeaders (some (headerSet m k (curr ++ [v]))))

/-- The header key written on the response: `ErrHeader = "X-App-Error"`. -/
def ErrHeader : String := "X-App-Error"

/-- The `for k, values := range ae.customHeaders` loop of `Handle`:
each name is added once with its values joined by `","`.  (Go iterates a map
in unspecified order; the association list fixes insertion order, and every
property below is per-name.) -/
def addHeaderList (w : ResponseWriter) (m : HeaderMap) : ResponseWriter :=
  m.foldl (fun acc kv => acc.addHeader kv.1 (String.intercalate "," kv.2)) w

/-- `Handle(err, w)` (part_000, the `APIErr` pipeline): resolve an `APIErr`
from the unwrap chain; write `ErrHeader` when `extras` is set, then the
custom headers; render via `http.Error` for codes in `[400, 600)` and via
`WriteHeader` alone otherwise.  Returns `false` without touching `w` when no
`APIErr` is found.  (Ranging over a nil map iterates zero times, hence
`getD []`.) -/
def Handle (err : GoError) (w : ResponseWriter) : ResponseWriter × Bool :=
  match extractAPIErr err with
  | none => (w, false)
  | some ae =>
    let w1 := if ae.extras then w.addHeader ErrHeader ae.mergeExtra else w
    let w2 := addHeaderList w1 (ae.customHeaders.getD [])
    if 400 ≤ ae.code ∧ ae.code < 600 then
      (httpError w2 (statusText ae.code) ae.code, true)
    else
      (w2.writeHeader ae.code, true)

/-- A request, reduced to the ambient context values a decorator can read. -/
structure Request where
  ctx : List (String × String)

/-- A `Decorator`: `func(w http.ResponseWriter, r *http.Request)`, modelled
as the transformation it applies to the response writer. -/
abbrev Decorator := ResponseWriter → Request → ResponseWriter

/-- `AddDecorator`: append to the process-wide decorator registry. -/
def AddDecorator (ds : List Decorator) (d : Decorator) : List Decorator :=
  ds ++ [d]

/-- The `for _, decorator := range decorators` loop of `HandleISE`: run every
registered decorator, in registration order. -/
def runDecorators (ds : List Decorator) (w : ResponseWriter) (r : Request) :
    ResponseWriter :=
  ds.foldl (fun acc d => d acc r) w

/-- The default `DefaultDBNotFoundHandler`: always `false`. -/
def DefaultDBNotFoundHandler : GoError → Bool := fun _ => false

/-- `HandleISE(err, w, r)` (part_000): run every decorator, then `Handle`;
when unhandled, consult the (overridable) `DefaultDBNotFoundHandler` slot
`dbNotFound` and reply 404, else fall back to 500.  The registry and the
predicate slot are process-wide mutable state, passed here explicitly. -/
def HandleISE (ds : List Decorator) (dbNotFound : GoError → Bool)
    (err : GoError) (w : ResponseWriter) (r : Request) : ResponseWriter :=
  let w0 := runDecorators ds w r
  let res := Handle err w0
  if res.2 then res.1
  else if dbNotFound err then httpError res.1 (statusText 404) 404
  else httpError res.1 (statusText 500) 500

/-- An `ErrHandler`: `func(err error) *problem.Problem`. -/
abbrev ErrHandler := GoError → Option Problem

/-- `AddHandler`: append to the process-wide handler registry. -/
def AddHandler (hs : List ErrHandler) (h : ErrHandler) : List ErrHandler :=
  hs ++ [h]

/-- The `for _, handler := range handlers` loop of the Problem-based
`Handle`: first non-nil result wins. -/
def runHandlers : List ErrHandler → GoError → Option Problem
  | [], _ => none
  | h :: rest, err =>
    match h err with
    | some p => some p
    | none => runHandlers rest err

/-- `Handle(err, w)` (handler.go, the Problem pipeline): resolve a
`problem.Problem` from the unwrap chain and write it; otherwise try the
registered handlers in order and write the first non-nil result; otherwise
reply 500 and return `false`. -/
def HandleV2 (hs : List ErrHandler) (err : GoError) (w : ResponseWriter) :
    ResponseWriter × Bool :=
  match extractProblem err with
  | some p => (p.writeTo w, true)
  | none =>
    match runHandlers hs err with
    | some p => (p.writeTo w, true)
    | none => (httpError w (statusText 500) 500, false)

/-- A Go `any` argument as passed to the variadic helpers of status.go. -/
inductive GoAny : Type where
  | s : String → GoAny
  | i : Int → GoAny
  | b : Bool → GoAny

/-- `fmt.Sprint` on one argument. -/
def GoAny.sprint : GoAny → String
  | .s v => v
  | .i v => toString v
  | .b v => if v then "true" else "false"

/-- `fmtArgs(values)`: format every argument with `fmt.Sprint`. -/
def fmtArgs (values : List GoAny) : List String :=
  values.map GoAny.sprint

/-- The fixed namespacing constant of status.go (Go name: the package-level
prefix constant `"app.backend.errors"` used by all client-facing errors). -/
def clientErrBase : String := "app.backend.errors"

/-- `fmtKey(clientErr)`: `fmt.Sprintf("%s.%s", <the constant>, clientErr)`. -/
def fmtKey (clientErr : String) : String := clientErrBase ++ "." ++ clientErr

/-- `HttpStatus` is a named integer status (`type HttpStatus int`). -/
abbrev HttpStatus := Int

/-- `(h HttpStatus) ErrTxt(text, extra...)`: `FromText` with the formatted
arguments, returned as an `error`. -/
def HttpStatus.ErrTxt (h : HttpStatus) (text : String) (extra : List GoAny) :
    GoError :=
  .api (FromText text h (fmtArgs extra))

/-- `(h HttpStatus) Err(err, extra...)`: `New` with the formatted
arguments, returned as an `error`. -/
def HttpStatus.Err (h : HttpStatus) (err : GoError) (extra : List GoAny) :
    GoError :=
  .api (New (some err) h (fmtArgs extra))

/-- `(h HttpStatus) ClientErr(text, clientErr, extra...)`: prepend the
namespaced key to the arguments and defer to `ErrTxt`. -/
def HttpStatus.ClientErr (h : HttpStatus) (text clientErr : String)
    (extra : List GoAny) : GoError :=
  h.ErrTxt text (GoAny.s (fmtKey clientErr) :: extra)

/-- `n` generic wrapper errors (`fmt.Errorf("%w")`) around a base error, the
outermost message first. -/
def wrapChain (msgs : List String) (e : GoError) : GoError :=
  msgs.foldr (fun m acc => .wrap m acc) e

/-- A finite sequence of `CustomHeader` calls, propagating the nil-map panic
(`none`). -/
def applyCalls (a : APIErr) : List (String × String) → Option APIErr
  | [] => some a
  | (k, v) :: rest =>
    match a.CustomHeader k v with
    | none => none
    | some a1 => applyCalls a1 rest

/-! ### Helper lemmas about the header map and the rendering loops -/

theorem headerLookup_headerSet_self (h : HeaderMap) (key : String) (vs : List String) :
    headerLookup (headerSet h key vs) key = some vs := by
  induction h with
  | nil => simp [headerSet, headerLookup]
  | cons hd tl ih =>
    obtain ⟨k0, old⟩ := hd
    by_cases hk : k0 = key
    · simp [headerSet, hk, headerLookup]
    · simp [headerSet, hk, headerLookup, ih]

theorem headerLookup_headerSet_ne (h : HeaderMap) (key k : String) (vs : List String)
    (hne : k ≠ key) :
    headerLookup (headerSet h key vs) k = headerLookup h k := by
  induction h with
  | nil => simp [headerSet, headerLookup, Ne.symm hne]
  | cons hd tl ih =>
    obtain ⟨k0, old⟩ := hd
    by_cases hk : k0 = key
    · subst hk
      simp [headerSet, headerLookup, Ne.symm hne]
    · simp only [headerSet, hk, if_false, headerLookup]
      by_cases hk2 : k0 = k <;> simp [hk2, ih]

theorem headerLookup_headerAdd_self (h : HeaderMap) (key v : String) :
    headerLookup (headerAdd h key v) key
      = some (((headerLookup h key).getD []) ++ [v]) := by
  unfold headerAdd
  cases hl : headerLookup h key with
  | none => simp [headerLookup_headerSet_self]
  | some vs => simp [headerLookup_headerSet_self]

theorem headerLookup_headerAdd_ne (h : HeaderMap) (key k v : String) (hne : k ≠ key) :
    headerLookup (headerAdd h key v) k = headerLookup h k := by
  unfold headerAdd
  cases headerLookup h key <;> simp [headerLookup_headerSet_ne _ _ _ _ hne]

theorem addHeader_headers (w : ResponseWriter) (key v : String) :
    (w.addHeader key v).headers = headerAdd w.headers key v := rfl

theorem addHeader_body (w : ResponseWriter) (key v : String) :
    (w.addHeader key v).body = w.body := rfl

theorem addHeader_status (w : ResponseWriter) (key v : String) :
    (w.addHeader key v).status = w.status := rfl

theorem addHeaderList_body (m : HeaderMap) (w : ResponseWriter) :
    (addHeaderList w m).body = w.body := by
  induction m generalizing w with
  | nil => rfl
  | cons hd tl ih => simpa [addHeaderList] using ih (w.addHeader hd.1 (String.intercalate "," hd.2))

theorem addHeaderList_status (m : HeaderMap) (w : ResponseWriter) :
    (addHeaderList w m).status = w.status := by
  induction m generalizing w with
  | nil => rfl
  | cons hd tl ih => simpa [addHeaderList] using ih (w.addHeader hd.1 (String.intercalate "," hd.2))

theorem addHeaderList_lookup_notmem (m : HeaderMap) (w : ResponseWriter) (k : String)
    (hk : k ∉ m.map Prod.fst) :
    headerLookup (addHeaderList w m).headers k = headerLookup w.headers k := by
  induction m generalizing w with
  | nil => rfl
  | cons hd tl ih =>
    obtain ⟨k0, vs0⟩ := hd
    simp only [List.map_cons, List.mem_cons, not_or] at hk
    have step : (addHeaderList w ((k0, vs0) :: tl))
        = addHeaderList (w.addHeader k0 (String.intercalate "," vs0)) tl := rfl
    rw [step, ih _ hk.2, addHeader_headers,
      headerLookup_headerAdd_ne _ _ _ _ hk.1]

theorem addHeaderList_lookup_mem (m : HeaderMap) (w : ResponseWriter) (k : String)
    (vs : List String) (hnd : (m.map Prod.fst).Nodup) (hmem : (k, vs) ∈ m)
    (hw : headerLookup w.headers k = none) :
    headerLookup (addHeaderList w m).headers k
      = some [String.intercalate "," vs] := by
  induction m generalizing w with
  | nil => cases hmem
  | cons hd tl ih =>
    obtain ⟨k0, vs0⟩ := hd
    simp only [List.map_cons, List.nodup_cons] at hnd
    have step : (addHeaderList w ((k0, vs0) :: tl))
        = addHeaderList (w.addHeader k0 (String.intercalate "," vs0)) tl := rfl
    rcases List.mem_cons.mp hmem with heq | htl
    · simp only [Prod.mk.injEq] at heq
      obtain ⟨rfl, rfl⟩ := heq
      rw [step, addHeaderList_lookup_notmem _ _ _ hnd.1, addHeader_headers,
        headerLookup_headerAdd_self, hw]
      rfl
    · have hk0ne : k0 ≠ k := by
        intro he
        exact hnd.1 (he ▸ List.mem_map_of_mem Prod.fst htl)
      rw [step]
      refine ih _ hnd.2 htl ?_
      rw [addHeader_headers, headerLookup_headerAdd_ne _ _ _ _ (Ne.symm hk0ne)]
      exact hw

theorem httpError_headers (w : ResponseWriter) (msg : String) (code : Int) :
    (httpError w msg code).headers = w.headers := rfl

theorem writeHeader_headers (w : ResponseWriter) (code : Int) :
    (w.writeHeader code).headers = w.headers := rfl

theorem string_empty_append (s : String) : "" ++ s = s := by
  cases s with
  | mk data => rfl

theorem extractAPIErr_api (a : APIErr) : extractAPIErr (.api a) = some a := rfl

theorem extractProblem_problem (p : Problem) :
    extractProblem (.problem p) = some p := rfl

theorem extractAPIErr_of_as (e : GoError) (a : APIErr)
    (h : errorsAsAPIErr e = some a) : extractAPIErr e = some a := by
  cases e with
  | basic m => simp [errorsAsAPIErr] at h
  | problem p => simp [errorsAsAPIErr] at h
  | api a0 =>
    simp [errorsAsAPIErr] at h
    subst h
    rfl
  | wrap m inner =>
    simp [extractAPIErr, h]

theorem extractProblem_of_as (e : GoError) (p : Problem)
    (h : errorsAsProblem e = some p) : extractProblem e = some p := by
  cases e with
  | basic m => simp [errorsAsProblem] at h
  | api a => simp [errorsAsProblem] at h
  | problem p0 =>
    simp [errorsAsProblem] at h
    subst h
    rfl
  | wrap m inner =>
    simp [extractProblem, h]

theorem extractAPIErr_wrap (m : String) (e : GoError) :
    extractAPIErr (.wrap m e) = extractAPIErr e := by
  cases h : errorsAsAPIErr e with
  | some a => rw [extractAPIErr_of_as (.wrap m e) a h, extractAPIErr_of_as e a h]
  | none => simp [extractAPIErr, errorsAsAPIErr, h]

theorem extractProblem_wrap (m : String) (e : GoError) :
    extractProblem (.wrap m e) = extractProblem e := by
  cases h : errorsAsProblem e with
  | some p => rw [extractProblem_of_as (.wrap m e) p h, extractProblem_of_as e p h]
  | none => simp [extractProblem, errorsAsProblem, h]

theorem wrapChain_cons (m : String) (tl : List String) (e : GoError) :
    wrapChain (m :: tl) e = .wrap m (wrapChain tl e) := rfl

theorem extractAPIErr_wrapChain (msgs : List String) (e : GoError) :
    extractAPIErr (wrapChain msgs e) = extractAPIErr e := by
  induction msgs with
  | nil => rfl
  | cons m tl ih => rw [wrapChain_cons, extractAPIErr_wrap, ih]

theorem extractProblem_wrapChain (msgs : List String) (e : GoError) :
    extractProblem (wrapChain msgs e) = extractProblem e := by
  induction msgs with
  | nil => rfl
  | cons m tl ih => rw [wrapChain_cons, extractProblem_wrap, ih]

theorem Handle_eq_of_extract (err : GoError) (ae : APIErr) (w : ResponseWriter)
    (hex : extractAPIErr err = some ae) :
    Handle err w =
      (if 400 ≤ ae.code ∧ ae.code < 600 then
        (httpError (addHeaderList
            (if ae.extras then w.addHeader ErrHeader ae.mergeExtra else w)
            (ae.customHeaders.getD [])) (statusText ae.code) ae.code, true)
      else
        ((addHeaderList
            (if ae.extras then w.addHeader ErrHeader ae.mergeExtra else w)
            (ae.customHeaders.getD [])).writeHeader ae.code, true)) := by
  simp only [Handle, hex]

theorem Handle_of_extract_none (err : GoError) (w : ResponseWriter)
    (ha : extractAPIErr err = none) : Handle err w = (w, false) := by
  simp [Handle, ha]

/-- C1: for every Structured Error Value resolved by `Handle`, the response
carries the value's status code; for codes in `[400, 600)` the body is the
standard reason phrase `http.StatusText(code)`, for codes outside that range
the body stays empty; `Handle` returns `true` in both cases. -/
theorem handle_renders_status_and_body (err : GoError) (ae : APIErr)
    (w : ResponseWriter) (hex : extractAPIErr err = some ae) (hb : w.body = "") :
    (Handle err w).2 = true
    ∧ (Handle err w).1.status = some ae.code
    ∧ ((400 ≤ ae.code ∧ ae.code < 600) → (Handle err w).1.body = statusText ae.code)
    ∧ (¬(400 ≤ ae.code ∧ ae.code < 600) → (Handle err w).1.body = "") := by
  rw [Handle_eq_of_extract err ae w hex]
  have hb1 : (if ae.extras then w.addHeader ErrHeader ae.mergeExtra else w).body = "" := by
    split <;> simp [addHeader_body, hb]
  have hb2 : (addHeaderList
      (if ae.extras then w.addHeader ErrHeader ae.mergeExtra else w)
      (ae.customHeaders.getD [])).body = "" := by
    rw [addHeaderList_body]; exact hb1
  by_cases hc : 400 ≤ ae.code ∧ ae.code < 600
  · rw [if_pos hc]
    refine ⟨rfl, rfl, fun _ => ?_, fun hn => absurd hc hn⟩
    show (httpError _ (statusText ae.code) ae.code).body = statusText ae.code
    simp only [httpError]
    rw [hb2, string_empty_append]
  · rw [if_neg hc]
    refine ⟨rfl, rfl, fun hcc => absurd hcc hc, fun _ => ?_⟩
    show ((addHeaderList _ _).writeHeader ae.code).body = ""
    simpa [ResponseWriter.writeHeader] using hb2

/-- Witness for C1: a 409 error renders status 409 with the reason-phrase
body, a 204 error renders status 204 with an empty body. -/
theorem handle_renders_status_and_body_witness :
    (Handle (.api (FromText "dup" 409 [])) ResponseWriter.fresh).2 = true
    ∧ (Handle (.api (FromText "dup" 409 [])) ResponseWriter.fresh).1.status = some 409
    ∧ (Handle (.api (FromText "dup" 409 [])) ResponseWriter.fresh).1.body = statusText 409
    ∧ (Handle (.api (FromText "none" 204 [])) ResponseWriter.fresh).1.body = "" := by
  have h1 := handle_renders_status_and_body (.api (FromText "dup" 409 []))
    (FromText "dup" 409 []) ResponseWriter.fresh rfl rfl
  have h2 := handle_renders_status_and_body (.api (FromText "none" 204 []))
    (FromText "none" 204 []) ResponseWriter.fresh rfl rfl
  exact ⟨h1.1, h1.2.1, h1.2.2.1 (by decide), h2.2.2.2 (by decide)⟩

/-- C2: wrapping a Structured Error Value (or a Problem) in any finite chain
of generic wrapper errors does not change what dispatch does — same status,
same headers, handled `true` — and the unwrap chain is walked to completion
(extraction through a chain equals extraction of the base error). -/
theorem dispatch_resolves_through_wrappers (msgs : List String) (a : APIErr)
    (p : Problem) (hs : List ErrHandler) (e0 : GoError) (w : ResponseWriter) :
    Handle (wrapChain msgs (.api a)) w = Handle (.api a) w
    ∧ (Handle (.api a) w).2 = true
    ∧ HandleV2 hs (wrapChain msgs (.problem p)) w = HandleV2 hs (.problem p) w
    ∧ extractAPIErr (wrapChain msgs e0) = extractAPIErr e0 := by
  have h1 : extractAPIErr (wrapChain msgs (.api a)) = some a := by
    rw [extractAPIErr_wrapChain]; rfl
  have h2 : extractProblem (wrapChain msgs (.problem p)) = some p := by
    rw [extractProblem_wrapChain]; rfl
  refine ⟨?_, ?_, ?_, extractAPIErr_wrapChain msgs e0⟩
  · rw [Handle_eq_of_extract _ a w h1, Handle_eq_of_extract _ a w (extractAPIErr_api a)]
  · rw [Handle_eq_of_extract _ a w (extractAPIErr_api a)]
    split <;> rfl
  · simp [HandleV2, h2, extractProblem_problem]

/-- C3: with no Problem in the unwrap chain and no handler matching, the
Problem dispatcher replies 500 "Internal Server Error" and returns `false`
(`true` whenever a Problem was found); on the request-aware path, an
unhandled error goes through the legacy not-found predicate: 404 "Not Found"
when it returns true, the 500 fallback otherwise. -/
theorem unmatched_fallbacks (hs : List ErrHandler) (ds : List Decorator)
    (dbnfT dbnfF : GoError → Bool) (err e2 : GoError) (p : Problem)
    (w : ResponseWriter) (r : Request)
    (hp : extractProblem err = none) (hr : runHandlers hs err = none)
    (ha : extractAPIErr err = none) (ht : dbnfT err = true) (hf : dbnfF err = false)
    (h2 : extractProblem e2 = some p) :
    HandleV2 hs err w = (httpError w "Internal Server Error" 500, false)
    ∧ (HandleV2 hs e2 w).2 = true
    ∧ HandleISE ds dbnfT err w r
        = httpError (runDecorators ds w r) "Not Found" 404
    ∧ HandleISE ds dbnfF err w r
        = httpError (runDecorators ds w r) "Internal Server Error" 500 := by
  have h500 : statusText 500 = "Internal Server Error" := by decide
  have h404 : statusText 404 = "Not Found" := by decide
  have hH : Handle err (runDecorators ds w r) = (runDecorators ds w r, false) :=
    Handle_of_extract_none _ _ ha
  refine ⟨?_, ?_, ?_, ?_⟩
  · simp [HandleV2, hp, hr, h500]
  · simp [HandleV2, h2]
  · simp [HandleISE, hH, ht, h404]
  · simp [HandleISE, hH, hf, h500]

/-- Witness for C3: a plain error with the empty registry replies 500 and
`false`; a direct Problem is handled; on the request-aware path a
always-true predicate gives 404, an always-false one gives 500. -/
theorem unmatched_fallbacks_witness :
    HandleV2 [] (.basic "boom") ResponseWriter.fresh
      = (httpError ResponseWriter.fresh "Internal Server Error" 500, false)
    ∧ (HandleV2 [] (.problem ⟨422, "pb"⟩) ResponseWriter.fresh).2 = true
    ∧ HandleISE [] (fun _ => true) (.basic "boom") ResponseWriter.fresh ⟨[]⟩
      = httpError (runDecorators [] ResponseWriter.fresh ⟨[]⟩) "Not Found" 404
    ∧ HandleISE [] (fun _ => false) (.basic "boom") ResponseWriter.fresh ⟨[]⟩
      = httpError (runDecorators [] ResponseWriter.fresh ⟨[]⟩)
          "Internal Server Error" 500 :=
  unmatched_fallbacks [] [] (fun _ => true) (fun _ => false) (.basic "boom")
    (.problem ⟨422, "pb"⟩) ⟨422, "pb"⟩ ResponseWriter.fresh ⟨[]⟩
    rfl rfl rfl rfl rfl rfl

theorem Handle_headers_of_extract (err : GoError) (ae : APIErr) (w : ResponseWriter)
    (hex : extractAPIErr err = some ae) :
    (Handle err w).1.headers =
      (addHeaderList (if ae.extras then w.addHeader ErrHeader ae.mergeExtra else w)
        (ae.customHeaders.getD [])).headers := by
  rw [Handle_eq_of_extract err ae w hex]
  by_cases hc : 400 ≤ ae.code ∧ ae.code < 600
  · rw [if_pos hc]
    exact httpError_headers _ _ _
  · rw [if_neg hc]
    exact writeHeader_headers _ _

/-- C4: `New` (and `FromText`, which defers to it) sets `extras = true` iff
at least one extra token was supplied; when tokens are present, `Handle`
writes `X-App-Error` with exactly the tokens joined by `","` in order, and
when none are present no `X-App-Error` header is written. -/
theorem new_extras_and_errheader (cause : Option GoError) (errText : String)
    (code : Int) (extra : List String) (w : ResponseWriter)
    (hw : headerLookup w.headers ErrHeader = none) :
    ((New cause code extra).extras = true ↔ extra ≠ [])
    ∧ FromText errText code extra = New (some (.basic errText)) code extra
    ∧ (extra ≠ [] →
        headerLookup (Handle (.api (New cause code extra)) w).1.headers ErrHeader
          = some [String.intercalate "," extra])
    ∧ (extra = [] →
        headerLookup (Handle (.api (New cause code extra)) w).1.headers ErrHeader
          = none) := by
  have hextras : (New cause code extra).extras = decide (0 < extra.length) := rfl
  have hheads := Handle_headers_of_extract (.api (New cause code extra))
    (New cause code extra) w (extractAPIErr_api _)
  have hch : (New cause code extra).customHeaders.getD [] = ([] : HeaderMap) := rfl
  rw [hch] at hheads
  refine ⟨?_, rfl, ?_, ?_⟩
  · rw [hextras]
    simp [List.length_pos]
  · intro hne
    have hex2 : (New cause code extra).extras = true := by
      rw [hextras]
      exact decide_eq_true (List.length_pos.mpr hne)
    rw [hheads, if_pos hex2]
    show headerLookup (addHeaderList (w.addHeader ErrHeader _) []).headers _ = _
    show headerLookup (w.addHeader ErrHeader _).headers _ = _
    rw [addHeader_headers, headerLookup_headerAdd_self, hw]
    rfl
  · intro h0
    subst h0
    have hex0 : ¬((New cause code ([] : List String)).extras = true) := by
      rw [hextras]
      simp
    rw [hheads, if_neg hex0]
    exact hw

/-- Witness for C4: three tokens render `X-App-Error` as their comma join;
zero tokens render no `X-App-Error` header. -/
theorem new_extras_and_errheader_witness :
    headerLookup (Handle (.api (New none 400 ["my", "custom", "headers"]))
        ResponseWriter.fresh).1.headers ErrHeader
      = some [String.intercalate "," ["my", "custom", "headers"]]
    ∧ headerLookup (Handle (.api (New none 400 ([] : List String)))
        ResponseWriter.fresh).1.headers ErrHeader = none := by
  have h1 := new_extras_and_errheader none "t" 400 ["my", "custom", "headers"]
    ResponseWriter.fresh rfl
  have h2 := new_extras_and_errheader none "t" 400 [] ResponseWriter.fresh rfl
  exact ⟨h1.2.2.1 (by decide), h2.2.2.2 rfl⟩

theorem runHandlers_append_of_miss (hs1 rest : List ErrHandler) (err : GoError)
    (hmiss : ∀ g ∈ hs1, g err = none) :
    runHandlers (hs1 ++ rest) err = runHandlers rest err := by
  induction hs1 with
  | nil => rfl
  | cons h tl ih =>
    have hh : h err = none := hmiss h (List.mem_cons_self h tl)
    have htl : ∀ g ∈ tl, g err = none := fun g hg => hmiss g (List.mem_cons_of_mem h hg)
    simp [runHandlers, hh, ih htl]

/-- C5: when unwrap-matching fails, the handlers registered with
`AddHandler` (which appends) are tried in registration order against the
original error; the first non-null result is rendered and everything
registered after it is never consulted (the result does not depend on
`hs2`). -/
theorem handlers_in_registration_order (hs hs1 hs2 : List ErrHandler)
    (h : ErrHandler) (err : GoError) (w : ResponseWriter) (p : Problem)
    (hnp : extractProblem err = none) (hmiss : ∀ g ∈ hs1, g err = none)
    (hhit : h err = some p) :
    HandleV2 (hs1 ++ h :: hs2) err w = (p.writeTo w, true)
    ∧ AddHandler hs h = hs ++ [h] := by
  have hrun : runHandlers (hs1 ++ h :: hs2) err = some p := by
    rw [runHandlers_append_of_miss hs1 (h :: hs2) err hmiss]
    simp [runHandlers, hhit]
  exact ⟨by simp [HandleV2, hnp, hrun], rfl⟩

/-- Witness for C5: a never-matching handler registered first, then an
always-matching one, then another handler that is never reached: dispatch
renders the second handler's problem. -/
theorem handlers_in_registration_order_witness :
    HandleV2 ([fun _ => none] ++ (fun _ => some ⟨409, "conflict"⟩)
        :: [fun _ => some ⟨500, "ise"⟩]) (.basic "boom") ResponseWriter.fresh
      = (Problem.writeTo ⟨409, "conflict"⟩ ResponseWriter.fresh, true)
    ∧ AddHandler [] (fun _ => some ⟨409, "conflict"⟩)
      = [] ++ [fun _ => some ⟨409, "conflict"⟩] := by
  refine handlers_in_registration_order [] [fun _ => none]
    [fun _ => some ⟨500, "ise"⟩] (fun _ => some ⟨409, "conflict"⟩)
    (.basic "boom") ResponseWriter.fresh ⟨409, "conflict"⟩ rfl ?_ rfl
  intro g hg
  obtain rfl := List.mem_singleton.mp hg
  rfl

/-- C6: on every `HandleISE` call — `err` here is an arbitrary error, with no
assumption about whether it is later recognized — all registered decorators
run first, in registration order, before any matching or fallback logic (the
call equals a decorator-free call on the already-decorated writer);
`AddDecorator` appends; and in particular a header added by a registered
decorator is still on the response when the error `errU` is completely
unrecognized and the 500 fallback fires. -/
theorem decorators_run_before_dispatch (ds : List Decorator)
    (dbnf : GoError → Bool) (err errU : GoError) (w : ResponseWriter)
    (r : Request) (k v : String)
    (ha : extractAPIErr errU = none) (hf : dbnf errU = false)
    (hk : headerLookup (runDecorators ds w r).headers k = none) :
    HandleISE ds dbnf err w r = HandleISE [] dbnf err (runDecorators ds w r) r
    ∧ runDecorators (AddDecorator ds (fun w0 _ => w0.addHeader k v)) w r
        = (runDecorators ds w r).addHeader k v
    ∧ headerLookup (HandleISE (AddDecorator ds (fun w0 _ => w0.addHeader k v))
        dbnf errU w r).headers k = some [v] := by
  have hrunapp : runDecorators (AddDecorator ds (fun w0 _ => w0.addHeader k v)) w r
      = (runDecorators ds w r).addHeader k v := by
    simp [runDecorators, AddDecorator, List.foldl_append]
  refine ⟨?_, hrunapp, ?_⟩
  · simp [HandleISE, runDecorators]
  · have hH : Handle errU ((runDecorators ds w r).addHeader k v)
        = ((runDecorators ds w r).addHeader k v, false) :=
      Handle_of_extract_none _ _ ha
    simp only [HandleISE, hrunapp, hH, hf]
    show headerLookup (httpError ((runDecorators ds w r).addHeader k v)
        (statusText 500) 500).headers k = some [v]
    rw [httpError_headers, addHeader_headers, headerLookup_headerAdd_self, hk]
    rfl

/-- Witness for C6: the decorators-run-first equation instantiated at a
recognized error (`.api`, a 400 `APIErr`), and an empty registry plus one
decorator adding `X-Trace`: an unrecognized error still carries
`X-Trace: t1` on the 500 response. -/
theorem decorators_run_before_dispatch_witness :
    HandleISE [] (fun _ => false) (.api (FromText "e" 400 []))
        ResponseWriter.fresh ⟨[]⟩
      = HandleISE [] (fun _ => false) (.api (FromText "e" 400 []))
          (runDecorators [] ResponseWriter.fresh ⟨[]⟩) ⟨[]⟩
    ∧ runDecorators (AddDecorator [] (fun w0 _ => w0.addHeader "X-Trace" "t1"))
        ResponseWriter.fresh ⟨[]⟩
      = (runDecorators [] ResponseWriter.fresh ⟨[]⟩).addHeader "X-Trace" "t1"
    ∧ headerLookup (HandleISE (AddDecorator [] (fun w0 _ => w0.addHeader "X-Trace" "t1"))
        (fun _ => false) (.basic "x") ResponseWriter.fresh ⟨[]⟩).headers "X-Trace"
      = some ["t1"] :=
  decorators_run_before_dispatch [] (fun _ => false) (.api (FromText "e" 400 []))
    (.basic "x") ResponseWriter.fresh ⟨[]⟩ "X-Trace" "t1" rfl rfl rfl

theorem CustomHeader_eq (a : APIErr) (m : HeaderMap) (k v : String)
    (hm : a.customHeaders = some m) :
    a.CustomHeader k v
      = some (a.withCustomHeaders
          (some (headerSet m k (((headerLookup m k).getD []) ++ [v])))) := by
  cases a with
  | mk c e0 ex ch fl =>
    simp only [APIErr.customHeaders] at hm
    subst hm
    simp only [APIErr.CustomHeader, APIErr.customHeaders]
    cases hl : headerLookup m k <;> simp [hl]

theorem withCustomHeaders_code (a : APIErr) (m : Option HeaderMap) :
    (a.withCustomHeaders m).code = a.code := by
  cases a; rfl

theorem withCustomHeaders_err (a : APIErr) (m : Option HeaderMap) :
    (a.withCustomHeaders m).err = a.err := by
  cases a; rfl

theorem withCustomHeaders_extra (a : APIErr) (m : Option HeaderMap) :
    (a.withCustomHeaders m).extra = a.extra := by
  cases a; rfl

theorem withCustomHeaders_extras (a : APIErr) (m : Option HeaderMap) :
    (a.withCustomHeaders m).extras = a.extras := by
  cases a; rfl

theorem withCustomHeaders_customHeaders (a : APIErr) (m : Option HeaderMap) :
    (a.withCustomHeaders m).customHeaders = m := by
  cases a; rfl

/-- C7: `CustomHeader` appends the value to the ordered list stored under the
name (creating it on first use), changes nothing but the map (the model of
"returns the same instance"), keeps both values of two sequential calls on
the same name; and `Handle` renders each custom header name with all
accumulated values joined by `","` in append order. -/
theorem customheader_appends_and_renders (a : APIErr) (m0 : HeaderMap)
    (k v1 v2 : String) (e : GoError) (ae : APIErr) (m : HeaderMap)
    (name : String) (vs : List String) (w : ResponseWriter)
    (hm0 : a.customHeaders = some m0)
    (hext : extractAPIErr e = some ae) (hm : ae.customHeaders = some m)
    (hnd : (m.map Prod.fst).Nodup) (hmem : (name, vs) ∈ m)
    (hkw : headerLookup w.headers name = none) (hne : name ≠ ErrHeader) :
    (∃ a1 a2 m2, a.CustomHeader k v1 = some a1 ∧ a1.CustomHeader k v2 = some a2
      ∧ a2.customHeaders = some m2
      ∧ headerLookup m2 k = some (((headerLookup m0 k).getD []) ++ [v1, v2])
      ∧ a2.code = a.code ∧ a2.err = a.err ∧ a2.extra = a.extra
      ∧ a2.extras = a.extras)
    ∧ headerLookup (Handle e w).1.headers name
        = some [String.intercalate "," vs] := by
  constructor
  · have h1 := CustomHeader_eq a m0 k v1 hm0
    set m1 : HeaderMap := headerSet m0 k (((headerLookup m0 k).getD []) ++ [v1]) with hm1def
    set a1 : APIErr := a.withCustomHeaders (some m1) with ha1def
    have hm1 : a1.customHeaders = some m1 := withCustomHeaders_customHeaders a _
    have h2 := CustomHeader_eq a1 m1 k v2 hm1
    have hlook1 : headerLookup m1 k = some (((headerLookup m0 k).getD []) ++ [v1]) := by
      rw [hm1def]
      exact headerLookup_headerSet_self _ _ _
    refine ⟨a1, _, _, h1, h2, withCustomHeaders_customHeaders _ _, ?_, ?_, ?_, ?_, ?_⟩
    · rw [hlook1]
      rw [headerLookup_headerSet_self]
      simp
    · rw [withCustomHeaders_code, ha1def, withCustomHeaders_code]
    · rw [withCustomHeaders_err, ha1def, withCustomHeaders_err]
    · rw [withCustomHeaders_extra, ha1def, withCustomHeaders_extra]
    · rw [withCustomHeaders_extras, ha1def, withCustomHeaders_extras]
  · rw [Handle_headers_of_extract e ae w hext, hm]
    show headerLookup (addHeaderList _ m).headers name = _
    have hpre : headerLookup
        (if ae.extras then w.addHeader ErrHeader ae.mergeExtra else w).headers name
        = none := by
      split
      · rw [addHeader_headers, headerLookup_headerAdd_ne _ _ _ _ hne]
        exact hkw
      · exact hkw
    exact addHeaderList_lookup_mem m _ name vs hnd hmem hpre

/-- Witness for C7: two appends on `X-C` keep both values in order, and a
custom header `X-C2` with two accumulated values renders as `"a,b"`. -/
theorem customheader_appends_and_renders_witness :
    (∃ a1 a2 m2,
      (FromText "x" 400 []).CustomHeader "X-C" "a" = some a1
      ∧ a1.CustomHeader "X-C" "b" = some a2
      ∧ a2.customHeaders = some m2
      ∧ headerLookup m2 "X-C"
          = some (((headerLookup ([] : HeaderMap) "X-C").getD []) ++ ["a", "b"])
      ∧ a2.code = (FromText "x" 400 []).code
      ∧ a2.err = (FromText "x" 400 []).err
      ∧ a2.extra = (FromText "x" 400 []).extra
      ∧ a2.extras = (FromText "x" 400 []).extras)
    ∧ headerLookup (Handle
        (.api (.mk 400 none [] (some [("X-C2", ["a", "b"])]) false))
        ResponseWriter.fresh).1.headers "X-C2"
      = some [String.intercalate "," ["a", "b"]] :=
  customheader_appends_and_renders (FromText "x" 400 []) [] "X-C" "a" "b"
    (.api (.mk 400 none [] (some [("X-C2", ["a", "b"])]) false))
    (.mk 400 none [] (some [("X-C2", ["a", "b"])]) false)
    [("X-C2", ["a", "b"])] "X-C2" ["a", "b"] ResponseWriter.fresh
    rfl rfl rfl (by simp) (by simp) rfl (by decide)

/-- C8: `ClientErr(text, clientErr, extra...)` builds a Structured Error
Value with the receiver's status code and the message text, whose extra
tokens are first the fixed namespacing base joined to `clientErr` by `"."`,
then each remaining argument formatted by `fmt.Sprint`, in order. -/
theorem clienterr_builds_namespaced_tokens (h : HttpStatus) (text k0 : String)
    (extra : List GoAny) :
    HttpStatus.ClientErr h text k0 extra
      = .api (APIErr.mk h (some (.basic text))
          ((clientErrBase ++ "." ++ k0) :: extra.map GoAny.sprint) (some []) true)
    ∧ extractAPIErr (HttpStatus.ClientErr h text k0 extra)
      = some (APIErr.mk h (some (.basic text))
          ((clientErrBase ++ "." ++ k0) :: extra.map GoAny.sprint) (some []) true)
    ∧ fmtKey k0 = clientErrBase ++ "." ++ k0
    ∧ clientErrBase = "app.backend.errors" := by
  have h1 : HttpStatus.ClientErr h text k0 extra
      = .api (APIErr.mk h (some (.basic text))
          ((clientErrBase ++ "." ++ k0) :: extra.map GoAny.sprint) (some []) true) := by
    simp [HttpStatus.ClientErr, HttpStatus.ErrTxt, FromText, New, fmtArgs,
      fmtKey, GoAny.sprint]
  refine ⟨h1, ?_, rfl, rfl⟩
  rw [h1]
  exact extractAPIErr_api _

/-- C9: `Error()` returns the wrapped cause's message, and the empty string
when the cause is nil (the nil check makes the operation total). -/
theorem error_returns_cause_message (a1 a2 : APIErr) (e : GoError)
    (h1 : a1.err = none) (h2 : a2.err = some e) :
    a1.Error = "" ∧ a2.Error = e.message := by
  constructor
  · cases a1 with
    | mk c e0 ex ch fl =>
      simp only [APIErr.err] at h1
      subst h1
      rfl
  · cases a2 with
    | mk c e0 ex ch fl =>
      simp only [APIErr.err] at h2
      subst h2
      rfl

/-- Witness for C9: an `APIErr` with nil cause yields `""`, one with a cause
yields the cause's message. -/
theorem error_returns_cause_message_witness :
    (New none 500 []).Error = ""
    ∧ (FromText "boom" 400 []).Error = (GoError.basic "boom").message :=
  error_returns_cause_message (New none 500 []) (FromText "boom" 400 [])
    (.basic "boom") rfl rfl

theorem applyCalls_total (calls : List (String × String)) :
    ∀ (a : APIErr) (m : HeaderMap), a.customHeaders = some m →
      ∃ a1, applyCalls a calls = some a1 := by
  induction calls with
  | nil => exact fun a m _ => ⟨a, rfl⟩
  | cons c tl ih =>
    intro a m hm
    obtain ⟨k, v⟩ := c
    have hstep := CustomHeader_eq a m k v hm
    obtain ⟨a2, h2⟩ := ih (a.withCustomHeaders
        (some (headerSet m k (((headerLookup m k).getD []) ++ [v]))))
      _ (withCustomHeaders_customHeaders _ _)
    exact ⟨a2, by simp [applyCalls, hstep, h2]⟩

/-- C10: every `APIErr` built by `New` or `FromText` carries a non-nil empty
`customHeaders` map, so every finite sequence of `CustomHeader` calls
succeeds (no nil-map write panic) and `Handle`'s iteration over the map is
well-defined (renders nothing) when no custom header was ever added. -/
theorem new_customheaders_nonnil_total (cause : Option GoError)
    (errText : String) (code : Int) (extra : List String)
    (calls : List (String × String)) (w : ResponseWriter) :
    (New cause code extra).customHeaders = some []
    ∧ (FromText errText code extra).customHeaders = some []
    ∧ (∃ a1, applyCalls (New cause code extra) calls = some a1)
    ∧ addHeaderList w ((New cause code extra).customHeaders.getD []) = w :=
  ⟨rfl, rfl, applyCalls_total calls _ [] rfl, rfl⟩
